import Mathlib

set_option autoImplicit false

/-!
A shallow embedding of the task scheduler in `src/scheduler/task_scheduler.py`.

The scheduler persists tasks in a SQLite table `tasks`, execution attempts in
`task_logs`, keeps APScheduler jobs in a memory jobstore, and keeps registered
task bodies in the dict `task_functions`.  We model the committed database
state, the jobstore and the registry as one record `SchedState`, and each
public method as a function on it.  Wall-clock timestamps are threaded in as
opaque strings; the outcome of running an opaque job body is threaded in as a
boolean (`bodyOk`) plus the stringified exception (`bodyErr`).  The external
APScheduler `CronTrigger` constructor is abstracted as a boolean function
`CronOk` saying which five-field combinations it accepts.
-/

namespace TaskSched

/-- Task status values (`TASK_STATUSES` in the source). -/
inductive Status where
  | pending
  | running
  | completed
  | failed
  | cancelled
deriving DecidableEq, Repr

/-- `TASK_PRIORITIES` in the source. -/
def TASK_PRIORITIES : List String := ["low", "normal", "high", "critical"]

/-- One row of the `tasks` table. -/
structure Task where
  id : Nat
  task_type : String
  priority : String
  schedule : Option String
  retry_count : Int
  max_retries : Int
  status : Status
  last_run_at : Option String
  next_run_at : Option String
  created_at : String
  updated_at : String
deriving DecidableEq, Repr

/-- One row of the `task_logs` table (an ExecutionRecord). -/
structure LogRecord where
  task_id : Nat
  status : Status
  started_at : String
  completed_at : Option String
  error_message : Option String
deriving DecidableEq, Repr

/-- An APScheduler trigger, as built by `_parse_schedule`. -/
inductive Trigger where
  | cron (minute hour day month day_of_week : String)
  | interval (seconds : Int)
deriving DecidableEq, Repr

/-- A job in the APScheduler jobstore: `add_job(self._execute_task, trigger,
id=f"task_{task_id}", args=[task_id, task_type])`. -/
structure Job where
  task_id : Nat
  task_type : String
  trigger : Trigger
deriving DecidableEq, Repr

/-- The committed state of one `TaskScheduler`. -/
structure SchedState where
  tasks : List Task
  next_id : Nat
  logs : List LogRecord
  jobs : List Job
  task_functions : List String
deriving DecidableEq, Repr

/-- A freshly initialised scheduler over an empty database
(SQLite `AUTOINCREMENT` ids start at 1). -/
def initState : SchedState :=
  { tasks := [], next_id := 1, logs := [], jobs := [], task_functions := [] }

/-- `SELECT * FROM tasks WHERE id=?` with `fetchone()`: the first matching row. -/
def findTask (st : SchedState) (task_id : Nat) : Option Task :=
  st.tasks.find? (fun t => t.id == task_id)

/-- `UPDATE tasks SET ... WHERE id=?`: apply the column update `g` to every
row whose id matches. -/
def updateTaskRow (tasks : List Task) (task_id : Nat) (g : Task → Task) : List Task :=
  tasks.map (fun t => if t.id = task_id then g t else t)

/-- `register_task_function`: binds a body to a task type (the body itself is
opaque; we record only the key of the `task_functions` dict). -/
def register_task_function (st : SchedState) (task_type : String) : SchedState :=
  { st with task_functions :=
      if st.task_functions.contains task_type then st.task_functions
      else st.task_functions ++ [task_type] }

/-- Abstraction of the external APScheduler `CronTrigger` constructor:
`cronOk minute hour day month dow = true` iff construction does not raise. -/
def CronOk : Type := String → String → String → String → String → Bool

/-- A `CronOk` that accepts every five-field combination. -/
def cronOkTrue : CronOk := fun _ _ _ _ _ => true

/-- A `CronOk` that rejects every five-field combination. -/
def cronOkFalse : CronOk := fun _ _ _ _ _ => false

def splitWsAux : List Char → List Char → List String
  | [], acc => if acc.isEmpty then [] else [String.mk acc.reverse]
  | c :: cs, acc =>
    if c.isWhitespace then
      if acc.isEmpty then splitWsAux cs [] else String.mk acc.reverse :: splitWsAux cs []
    else splitWsAux cs (c :: acc)

/-- Model of Python `str.split()` with no arguments: split on whitespace runs,
never producing empty pieces. -/
def pySplit (s : String) : List String :=
  splitWsAux s.data []

def dropWs : List Char → List Char
  | [] => []
  | c :: cs => if c.isWhitespace then dropWs cs else c :: cs

/-- Strip leading and trailing whitespace. -/
def stripWs (l : List Char) : List Char :=
  (dropWs (dropWs l).reverse).reverse

def digitVal (c : Char) : Option Nat :=
  if c.isDigit then some (c.toNat - Char.toNat '0') else none

def parseDigitsAux : List Char → Nat → Option Nat
  | [], acc => some acc
  | c :: cs, acc =>
    match digitVal c with
    | some d => parseDigitsAux cs (acc * 10 + d)
    | none => none

/-- A nonempty run of decimal digits, as a number. -/
def parseDigits : List Char → Option Nat
  | [] => none
  | l => parseDigitsAux l 0

/-- Model of Python `int(s)`: optional surrounding whitespace, an optional
sign, then a nonempty run of decimal digits. -/
def pyInt (s : String) : Option Int :=
  match stripWs s.data with
  | '+' :: rest => (parseDigits rest).map (fun n => (n : Int))
  | '-' :: rest => (parseDigits rest).map (fun n => -(n : Int))
  | l => (parseDigits l).map (fun n => (n : Int))

def charsStartWith : List Char → List Char → Bool
  | [], _ => true
  | _ :: _, [] => false
  | a :: p, b :: l => a == b && charsStartWith p l

/-- Model of Python `str.startswith(pat)`. -/
def strStartsWith (s pat : String) : Bool :=
  charsStartWith pat.data s.data

/-- `_parse_schedule`: five whitespace-separated fields go to `CronTrigger`
(`none` if that raises); otherwise a string starting with `"interval "` whose
second whitespace token parses as an int gives an `IntervalTrigger`; anything
else is `none`. -/
def _parse_schedule (cronOk : CronOk) (schedule : String) : Option Trigger :=
  let parts := pySplit schedule
  match parts with
  | [a, b, c, d, e] => if cronOk a b c d e then some (.cron a b c d e) else none
  | _ =>
    if strStartsWith schedule "interval " then
      match parts with
      | _ :: second :: _ =>
        match pyInt second with
        | some n => some (.interval n)
        | none => none
      | _ => none
    else none

/-- `_schedule_task`: registers the APScheduler job, but only when a body is
registered for the task type and the schedule parses. -/
def _schedule_task (cronOk : CronOk) (st : SchedState) (task_id : Nat)
    (task_type schedule : String) : SchedState :=
  if st.task_functions.contains task_type = false then st
  else
    match _parse_schedule cronOk schedule with
    | none => st
    | some trig =>
      { st with jobs := st.jobs ++ [{ task_id := task_id, task_type := task_type, trigger := trig }] }

/-- The row inserted by `add_task` (`INSERT INTO tasks ... VALUES
(?, ?, ?, ?, ?, 'pending', ?, ?)`; `lastrowid` is the autoincrement value). -/
def newTaskRow (st : SchedState) (now task_type priority : String)
    (schedule : Option String) (retry_count max_retries : Int) : Task :=
  { id := st.next_id, task_type := task_type, priority := priority, schedule := schedule,
    retry_count := retry_count, max_retries := max_retries, status := .pending,
    last_run_at := none, next_run_at := none, created_at := now, updated_at := now }

/-- Committing one inserted row (the autoincrement counter advances). -/
def insertTask (st : SchedState) (t : Task) : SchedState :=
  { st with tasks := st.tasks ++ [t], next_id := st.next_id + 1 }

/-- The tail of `add_task`: `if schedule and not manual_trigger:
self._schedule_task(...)` (a `None` or empty `schedule` is falsy). -/
def maybeSchedule (cronOk : CronOk) (st1 : SchedState) (task_id : Nat) (task_type : String)
    (schedule : Option String) (manual_trigger : Bool) : SchedState :=
  match schedule with
  | some s =>
    if s ≠ "" ∧ manual_trigger = false then _schedule_task cronOk st1 task_id task_type s
    else st1
  | none => st1

/-- `add_task`: validates the priority (raising `ValueError`, modelled as
`Except.error`, before any write), inserts the row with `status='pending'` and
the given `retry_count`/`max_retries`, then schedules when `schedule` is
truthy and `manual_trigger` is false.  Source defaults: `priority="normal"`,
`schedule=None`, `retry_count=3`, `max_retries=3`, `manual_trigger=False`. -/
def add_task (cronOk : CronOk) (st : SchedState) (now : String) (task_type priority : String)
    (schedule : Option String) (retry_count max_retries : Int) (manual_trigger : Bool) :
    Except String (SchedState × Nat) :=
  if priority ∉ TASK_PRIORITIES then
    .error ("Invalid priority: " ++ priority)
  else
    let task := newTaskRow st now task_type priority schedule retry_count max_retries
    let st1 := insertTask st task
    let st2 := maybeSchedule cronOk st1 task.id task_type schedule manual_trigger
    .ok (st2, task.id)

/-- The first UPDATE of `_execute_task`:
`SET status='running', last_run_at=?, updated_at=?`. -/
def runRow (started_at : String) (t : Task) : Task :=
  { t with status := .running, last_run_at := some started_at, updated_at := started_at }

/-- The second UPDATE of `_execute_task`, with the retry rule applied to the
fetched values `row.retry_count`/`row.max_retries`: either
`SET retry_count=?, status='pending', updated_at=?` or
`SET status=?, updated_at=?`. -/
def finishRow (success : Bool) (completed_at : String) (row : Task) (t : Task) : Task :=
  if success = false ∧ row.retry_count < row.max_retries then
    { t with retry_count := row.retry_count + 1, status := .pending, updated_at := completed_at }
  else
    { t with status := (if success then .completed else .failed), updated_at := completed_at }

/-- The `INSERT INTO task_logs` row of `_execute_task`. -/
def execLogRow (st : SchedState) (task_id : Nat) (task_type : String) (bodyOk : Bool)
    (bodyErr started_at completed_at : String) : LogRecord :=
  let success := st.task_functions.contains task_type && bodyOk
  { task_id := task_id, status := if success then .completed else .failed,
    started_at := started_at, completed_at := some completed_at,
    error_message :=
      if success then none
      else if st.task_functions.contains task_type then some bodyErr
      else some ("No function registered for task type: " ++ task_type) }

/-- `_execute_task`: marks the row running, reads `retry_count`/`max_retries`
back from it, runs the body (success iff a body is registered for the type and
it does not raise), applies the retry rule, and appends one `task_logs` row;
everything is committed atomically at the end.  When the row does not exist,
`task_data[0]` raises before the commit, so no change persists: modelled as
`none`. -/
def _execute_task (st : SchedState) (task_id : Nat) (task_type : String)
    (bodyOk : Bool) (bodyErr : String) (started_at completed_at : String) :
    Option SchedState :=
  let tasks1 := updateTaskRow st.tasks task_id (runRow started_at)
  match tasks1.find? (fun t => t.id == task_id) with
  | none => none
  | some row =>
    let success := st.task_functions.contains task_type && bodyOk
    let tasks2 := updateTaskRow tasks1 task_id (finishRow success completed_at row)
    let logs2 := st.logs ++ [execLogRow st task_id task_type bodyOk bodyErr started_at completed_at]
    some { st with tasks := tasks2, logs := logs2 }

/-- `trigger_task`: false when the row is missing or its status is
`cancelled` or `completed`; otherwise executes the task and returns true.
(The `none` arm of the inner match is unreachable: the row was just found.) -/
def trigger_task (st : SchedState) (task_id : Nat) (bodyOk : Bool)
    (bodyErr started_at completed_at : String) : SchedState × Bool :=
  match findTask st task_id with
  | none => (st, false)
  | some task =>
    if task.status = .cancelled ∨ task.status = .completed then (st, false)
    else
      match _execute_task st task_id task.task_type bodyOk bodyErr started_at completed_at with
      | some st' => (st', true)
      | none => (st, true)

/-- `cancel_task`: removes the APScheduler job if present (`try/except pass`),
unconditionally updates the row to `cancelled`, and returns `True`. -/
def cancel_task (st : SchedState) (task_id : Nat) (now : String) : SchedState × Bool :=
  let st1 : SchedState := { st with jobs := st.jobs.filter (fun j => j.task_id != task_id) }
  let tasks2 := updateTaskRow st1.tasks task_id
    (fun t => { t with status := .cancelled, updated_at := now })
  let st2 : SchedState := { st1 with tasks := tasks2 }
  (st2, true)

/-- `get_task_status`: the row as a dict, or `None`. -/
def get_task_status (st : SchedState) (task_id : Nat) : Option Task :=
  findTask st task_id

/-- A firing of the APScheduler job for `task_id`: happens only while the job
is registered, and calls `_execute_task` with the arguments captured at
scheduling time.  An exception inside the job is swallowed by APScheduler and,
since nothing was committed, leaves the store unchanged. -/
def scheduled_fire (st : SchedState) (task_id : Nat) (bodyOk : Bool)
    (bodyErr started_at completed_at : String) : SchedState :=
  match st.jobs.find? (fun j => j.task_id == task_id) with
  | none => st
  | some j =>
    match _execute_task st task_id j.task_type bodyOk bodyErr started_at completed_at with
    | some st' => st'
    | none => st

/-- The public operations, for reachability statements. -/
inductive Op where
  | register (task_type : String)
  | add (now task_type priority : String) (schedule : Option String)
      (retry_count max_retries : Int) (manual_trigger : Bool)
  | trigger (task_id : Nat) (bodyOk : Bool) (bodyErr started_at completed_at : String)
  | cancel (task_id : Nat) (now : String)
  | fire (task_id : Nat) (bodyOk : Bool) (bodyErr started_at completed_at : String)
deriving DecidableEq, Repr

/-- Effect of one operation on the committed state (a raised `ValueError`
leaves the state unchanged). -/
def applyOp (cronOk : CronOk) (st : SchedState) : Op → SchedState
  | .register ty => register_task_function st ty
  | .add now ty pr sch rc mr man =>
    match add_task cronOk st now ty pr sch rc mr man with
    | .ok p => p.1
    | .error _ => st
  | .trigger id bodyOk err s c => (trigger_task st id bodyOk err s c).1
  | .cancel id now => (cancel_task st id now).1
  | .fire id bodyOk err s c => scheduled_fire st id bodyOk err s c

/-- Running a sequence of public operations from a state. -/
def runOps (cronOk : CronOk) (st : SchedState) (ops : List Op) : SchedState :=
  ops.foldl (applyOp cronOk) st

/-- The id an operation cancels, if any. -/
def cancelTarget : Op → Option Nat
  | .cancel id _ => some id
  | _ => none

/-- The id an operation executes (manually or by a scheduled firing), if any. -/
def execTarget : Op → Option Nat
  | .trigger id _ _ _ _ => some id
  | .fire id _ _ _ _ => some id
  | _ => none

/-- The committed state produced by `_execute_task` when the row `t` was the
fetched one: both UPDATEs applied to the row, one log row appended. -/
def execResult (st : SchedState) (task_id : Nat) (task_type : String) (bodyOk : Bool)
    (bodyErr started_at completed_at : String) (t : Task) : SchedState :=
  let tasks2 := updateTaskRow (updateTaskRow st.tasks task_id (runRow started_at)) task_id
    (finishRow (st.task_functions.contains task_type && bodyOk) completed_at (runRow started_at t))
  let logs2 := st.logs ++ [execLogRow st task_id task_type bodyOk bodyErr started_at completed_at]
  { st with tasks := tasks2, logs := logs2 }

/-- The schedule forms the spec declares parseable: exactly five
whitespace-separated cron fields accepted by the cron evaluator, or the
literal form `interval N` with `N` an integer.  (Spec-side definition, for
comparison with the code's `_parse_schedule`.) -/
def spec_schedule_parses (cronOk : CronOk) (s : String) : Bool :=
  match pySplit s with
  | [a, b, c, d, e] => cronOk a b c d e
  | ["interval", n] => (pyInt n).isSome
  | _ => false

/-- Does an `add` operation pass in-range retry arguments?  (The code never
validates these; the amended claim C4 assumes callers do.) -/
def addArgsOk : Op → Bool
  | .add _ _ _ _ rc mr _ => decide (0 ≤ rc ∧ rc ≤ mr)
  | _ => true

/-! ### Concrete scenario states used by witnesses and counterexamples -/

/-- A scheduler with a body registered for `"t"` and nothing else. -/
def stateRegT : SchedState := register_task_function initState "t"

/-- One registered type `"t"`, one pending task: id 1, `retry_count` 0,
`max_retries` 3, no schedule. -/
def statePending : SchedState :=
  runOps cronOkTrue initState [.register "t", .add "T0" "t" "normal" none 0 3 false]

/-- The stored row of `statePending`. -/
def rowPending : Task :=
  { id := 1, task_type := "t", priority := "normal", schedule := none,
    retry_count := 0, max_retries := 3, status := .pending,
    last_run_at := none, next_run_at := none, created_at := "T0", updated_at := "T0" }

/-- `rowPending` after `cancel_task` at time `"T9"`. -/
def rowCancelled : Task :=
  { rowPending with status := .cancelled, updated_at := "T9" }

/-- `statePending` after one successful manual execution: task 1 `completed`. -/
def stateCompleted : SchedState :=
  applyOp cronOkTrue statePending (.trigger 1 true "" "T1" "T2")

/-- A task added with the source defaults (`retry_count = max_retries = 3`)
whose first (failing) execution already drove it to `failed`. -/
def stateFailed : SchedState :=
  runOps cronOkTrue initState
    [.register "t", .add "T0" "t" "normal" none 3 3 false, .trigger 1 false "boom" "T1" "T2"]

/-- The stored row of `stateFailed`. -/
def rowFailed : Task :=
  { id := 1, task_type := "t", priority := "normal", schedule := none,
    retry_count := 3, max_retries := 3, status := .failed,
    last_run_at := some "T1", next_run_at := none, created_at := "T0", updated_at := "T2" }

/-- Register, add with `retry_count 0 / max_retries 3`, one failing run. -/
def c4Ops : List Op :=
  [.register "t", .add "T0" "t" "normal" none 0 3 false, .trigger 1 false "boom" "T1" "T2"]

/-- The row produced by `c4Ops`: one retry consumed. -/
def rowRetry1 : Task :=
  { id := 1, task_type := "t", priority := "normal", schedule := none,
    retry_count := 1, max_retries := 3, status := .pending,
    last_run_at := some "T1", next_run_at := none, created_at := "T0", updated_at := "T2" }

/-! ## Basic lemmas about row lookup and row updates -/

theorem id_runRow (s : String) (t : Task) : (runRow s t).id = t.id := rfl

theorem id_finishRow (b : Bool) (c : String) (row t : Task) :
    (finishRow b c row t).id = t.id := by
  unfold finishRow
  split <;> rfl

theorem find?_id_eq (l : List Task) (j : Nat) (t : Task)
    (h : l.find? (fun x => x.id == j) = some t) : t.id = j := by
  have := List.find?_some h
  simpa using this

theorem find?_updateTaskRow (l : List Task) (j : Nat) (g : Task → Task)
    (hg : ∀ t, (g t).id = t.id) (id : Nat) :
    (updateTaskRow l j g).find? (fun t => t.id == id)
      = (l.find? (fun t => t.id == id)).map (fun t => if t.id = j then g t else t) := by
  induction l with
  | nil => rfl
  | cons a l ih =>
    have hid : (if a.id = j then g a else a).id = a.id := by
      by_cases h : a.id = j
      · rw [if_pos h, hg]
      · rw [if_neg h]
    simp only [updateTaskRow, List.map_cons, List.find?_cons, hid] at ih ⊢
    by_cases hb : a.id = id
    · simp [hb]
    · have hbeq : (a.id == id) = false := by simp [hb]
      simp only [hbeq]
      exact ih

theorem find?_updateTaskRow_other (l : List Task) (j : Nat) (g : Task → Task)
    (hg : ∀ t, (g t).id = t.id) (id : Nat) (hne : id ≠ j) :
    (updateTaskRow l j g).find? (fun t => t.id == id) = l.find? (fun t => t.id == id) := by
  rw [find?_updateTaskRow l j g hg id]
  cases hf : l.find? (fun t => t.id == id) with
  | none => rfl
  | some u =>
    have hu : u.id = id := find?_id_eq l id u hf
    simp [hu, hne]

theorem find?_append_of_some {α : Type} (l1 l2 : List α) (p : α → Bool) (a : α)
    (h : l1.find? p = some a) : (l1 ++ l2).find? p = some a := by
  rw [List.find?_append, h]
  rfl

theorem find?_unique_of_pairwise (l : List Task) (j : Nat) (u t : Task)
    (hp : l.Pairwise (fun a b => a.id ≠ b.id))
    (hf : l.find? (fun x => x.id == j) = some u)
    (ht : t ∈ l) (hid : t.id = j) : t = u := by
  induction l with
  | nil => simp at ht
  | cons a l ih =>
    rcases List.pairwise_cons.mp hp with ⟨ha, hl⟩
    simp only [List.find?_cons] at hf
    by_cases hx : a.id = j
    · have hbeq : (a.id == j) = true := by simp [hx]
      rw [hbeq] at hf
      have hau : a = u := by simpa using hf
      rcases List.mem_cons.mp ht with h | h
      · rw [h, hau]
      · exact absurd (hx.trans hid.symm) (ha t h)
    · have hbeq : (a.id == j) = false := by simp [hx]
      rw [hbeq] at hf
      rcases List.mem_cons.mp ht with h | h
      · exact absurd (h ▸ hid) hx
      · exact ih hl hf h

/-! ## How each operation transforms the state -/

theorem schedule_task_unregistered (cronOk : CronOk) (st : SchedState) (j : Nat) (ty s : String)
    (h : st.task_functions.contains ty = false) :
    _schedule_task cronOk st j ty s = st := by
  unfold _schedule_task
  rw [if_pos h]

theorem schedule_task_noparse (cronOk : CronOk) (st : SchedState) (j : Nat) (ty s : String)
    (h : _parse_schedule cronOk s = none) :
    _schedule_task cronOk st j ty s = st := by
  unfold _schedule_task
  split
  · rfl
  · rw [h]

theorem schedule_task_registered_parse (cronOk : CronOk) (st : SchedState) (j : Nat)
    (ty s : String) (tr : Trigger)
    (h1 : st.task_functions.contains ty = true) (h2 : _parse_schedule cronOk s = some tr) :
    _schedule_task cronOk st j ty s
      = { st with jobs := st.jobs ++ [{ task_id := j, task_type := ty, trigger := tr }] } := by
  unfold _schedule_task
  rw [if_neg (by rw [h1]; simp), h2]

theorem tasks_schedule_task (cronOk : CronOk) (st : SchedState) (j : Nat) (ty s : String) :
    (_schedule_task cronOk st j ty s).tasks = st.tasks := by
  unfold _schedule_task
  split
  · rfl
  · cases _parse_schedule cronOk s <;> rfl

theorem next_id_schedule_task (cronOk : CronOk) (st : SchedState) (j : Nat) (ty s : String) :
    (_schedule_task cronOk st j ty s).next_id = st.next_id := by
  unfold _schedule_task
  split
  · rfl
  · cases _parse_schedule cronOk s <;> rfl

theorem logs_schedule_task (cronOk : CronOk) (st : SchedState) (j : Nat) (ty s : String) :
    (_schedule_task cronOk st j ty s).logs = st.logs := by
  unfold _schedule_task
  split
  · rfl
  · cases _parse_schedule cronOk s <;> rfl

theorem task_functions_schedule_task (cronOk : CronOk) (st : SchedState) (j : Nat)
    (ty s : String) :
    (_schedule_task cronOk st j ty s).task_functions = st.task_functions := by
  unfold _schedule_task
  split
  · rfl
  · cases _parse_schedule cronOk s <;> rfl

theorem tasks_maybeSchedule (cronOk : CronOk) (st1 : SchedState) (j : Nat) (ty : String)
    (sch : Option String) (man : Bool) :
    (maybeSchedule cronOk st1 j ty sch man).tasks = st1.tasks := by
  cases sch with
  | none => rfl
  | some s =>
    simp only [maybeSchedule]
    split
    · rw [tasks_schedule_task]
    · rfl

theorem next_id_maybeSchedule (cronOk : CronOk) (st1 : SchedState) (j : Nat) (ty : String)
    (sch : Option String) (man : Bool) :
    (maybeSchedule cronOk st1 j ty sch man).next_id = st1.next_id := by
  cases sch with
  | none => rfl
  | some s =>
    simp only [maybeSchedule]
    split
    · rw [next_id_schedule_task]
    · rfl

theorem logs_maybeSchedule (cronOk : CronOk) (st1 : SchedState) (j : Nat) (ty : String)
    (sch : Option String) (man : Bool) :
    (maybeSchedule cronOk st1 j ty sch man).logs = st1.logs := by
  cases sch with
  | none => rfl
  | some s =>
    simp only [maybeSchedule]
    split
    · rw [logs_schedule_task]
    · rfl

theorem add_task_invalid (cronOk : CronOk) (st : SchedState) (now ty pr : String)
    (sch : Option String) (rc mr : Int) (man : Bool) (hpr : pr ∉ TASK_PRIORITIES) :
    add_task cronOk st now ty pr sch rc mr man = .error ("Invalid priority: " ++ pr) := by
  unfold add_task
  rw [if_pos hpr]

theorem add_task_ok (cronOk : CronOk) (st : SchedState) (now ty pr : String)
    (sch : Option String) (rc mr : Int) (man : Bool) (hpr : pr ∈ TASK_PRIORITIES) :
    ∃ st2, add_task cronOk st now ty pr sch rc mr man = .ok (st2, st.next_id) ∧
      st2.tasks = st.tasks ++ [newTaskRow st now ty pr sch rc mr] ∧
      st2.next_id = st.next_id + 1 ∧
      st2.logs = st.logs := by
  unfold add_task
  rw [if_neg (not_not_intro hpr)]
  refine ⟨_, rfl, ?_, ?_, ?_⟩
  · rw [tasks_maybeSchedule]
    rfl
  · rw [next_id_maybeSchedule]
    rfl
  · rw [logs_maybeSchedule]
    rfl

theorem execute_found (st : SchedState) (id : Nat) (ty : String) (bodyOk : Bool)
    (err s c : String) (t : Task) (h : findTask st id = some t) :
    _execute_task st id ty bodyOk err s c = some (execResult st id ty bodyOk err s c t) := by
  have hid : t.id = id := find?_id_eq st.tasks id t h
  have h0 : st.tasks.find? (fun x => x.id == id) = some t := h
  have h1 : (updateTaskRow st.tasks id (runRow s)).find? (fun x => x.id == id)
      = some (runRow s t) := by
    rw [find?_updateTaskRow st.tasks id (runRow s) (fun u => rfl) id, h0]
    simp [hid]
  simp only [_execute_task]
  rw [h1]
  rfl

theorem execute_not_found (st : SchedState) (id : Nat) (ty : String) (bodyOk : Bool)
    (err s c : String) (h : findTask st id = none) :
    _execute_task st id ty bodyOk err s c = none := by
  have h0 : st.tasks.find? (fun x => x.id == id) = none := h
  have h1 : (updateTaskRow st.tasks id (runRow s)).find? (fun x => x.id == id) = none := by
    rw [find?_updateTaskRow st.tasks id (runRow s) (fun u => rfl) id, h0]
    rfl
  simp only [_execute_task]
  rw [h1]

theorem findTask_execResult_self (st : SchedState) (id : Nat) (ty : String) (bodyOk : Bool)
    (err s c : String) (t : Task) (h : findTask st id = some t) :
    findTask (execResult st id ty bodyOk err s c t) id
      = some (finishRow (st.task_functions.contains ty && bodyOk) c (runRow s t) (runRow s t)) := by
  have hid : t.id = id := find?_id_eq st.tasks id t h
  have h0 : st.tasks.find? (fun x => x.id == id) = some t := h
  simp only [findTask, execResult]
  rw [find?_updateTaskRow (updateTaskRow st.tasks id (runRow s)) id
        (finishRow (st.task_functions.contains ty && bodyOk) c (runRow s t))
        (fun u => id_finishRow _ _ _ u) id,
      find?_updateTaskRow st.tasks id (runRow s) (fun u => rfl) id, h0]
  simp [hid, id_runRow, runRow]

theorem findTask_execResult_other (st : SchedState) (id : Nat) (ty : String) (bodyOk : Bool)
    (err s c : String) (t : Task) (id2 : Nat) (hne : id2 ≠ id) :
    findTask (execResult st id ty bodyOk err s c t) id2 = findTask st id2 := by
  simp only [findTask, execResult]
  rw [find?_updateTaskRow_other (updateTaskRow st.tasks id (runRow s)) id
        (finishRow (st.task_functions.contains ty && bodyOk) c (runRow s t))
        (fun u => id_finishRow _ _ _ u) id2 hne,
      find?_updateTaskRow_other st.tasks id (runRow s) (fun u => rfl) id2 hne]

theorem finishRow_status (b : Bool) (c : String) (row t : Task) :
    (finishRow b c row t).status = Status.completed ∨
    (finishRow b c row t).status = Status.pending ∨
    (finishRow b c row t).status = Status.failed := by
  unfold finishRow
  split
  · right
    left
    rfl
  · cases b
    · right
      right
      rfl
    · left
      rfl

theorem trigger_task_not_found (st : SchedState) (id : Nat) (bodyOk : Bool)
    (err s c : String) (h : findTask st id = none) :
    trigger_task st id bodyOk err s c = (st, false) := by
  simp only [trigger_task, h]

theorem trigger_task_terminal (st : SchedState) (id : Nat) (bodyOk : Bool)
    (err s c : String) (t : Task) (h : findTask st id = some t)
    (ht : t.status = Status.cancelled ∨ t.status = Status.completed) :
    trigger_task st id bodyOk err s c = (st, false) := by
  simp only [trigger_task, h]
  rw [if_pos ht]

theorem trigger_task_runs (st : SchedState) (id : Nat) (bodyOk : Bool)
    (err s c : String) (t : Task) (h : findTask st id = some t)
    (ht : ¬(t.status = Status.cancelled ∨ t.status = Status.completed)) :
    trigger_task st id bodyOk err s c = (execResult st id t.task_type bodyOk err s c t, true) := by
  simp only [trigger_task, h]
  rw [if_neg ht, execute_found st id t.task_type bodyOk err s c t h]

theorem fire_no_job (st : SchedState) (id : Nat) (bodyOk : Bool) (err s c : String)
    (h : st.jobs.find? (fun j => j.task_id == id) = none) :
    scheduled_fire st id bodyOk err s c = st := by
  simp only [scheduled_fire, h]

theorem fire_no_row (st : SchedState) (id : Nat) (bodyOk : Bool) (err s c : String)
    (jb : Job) (hj : st.jobs.find? (fun j => j.task_id == id) = some jb)
    (h : findTask st id = none) :
    scheduled_fire st id bodyOk err s c = st := by
  simp only [scheduled_fire, hj]
  rw [execute_not_found st id jb.task_type bodyOk err s c h]

theorem fire_runs (st : SchedState) (id : Nat) (bodyOk : Bool) (err s c : String)
    (jb : Job) (hj : st.jobs.find? (fun j => j.task_id == id) = some jb)
    (t : Task) (h : findTask st id = some t) :
    scheduled_fire st id bodyOk err s c = execResult st id jb.task_type bodyOk err s c t := by
  simp only [scheduled_fire, hj]
  rw [execute_found st id jb.task_type bodyOk err s c t h]

theorem updateTaskRow_no_match (l : List Task) (j : Nat) (g : Task → Task)
    (h : l.find? (fun t => t.id == j) = none) : updateTaskRow l j g = l := by
  induction l with
  | nil => rfl
  | cons a l ih =>
    simp only [List.find?_cons] at h
    by_cases ha : a.id = j
    · rw [show (a.id == j) = true by simp [ha]] at h
      simp at h
    · rw [show (a.id == j) = false by simp [ha]] at h
      simp only [updateTaskRow, List.map_cons, if_neg ha]
      simp only [updateTaskRow] at ih
      rw [ih h]

/-! ## The claims -/

/-- Claim C1 (code bug): `add_task` on the spec's scenario input returns id 1
and `get_task_status` then reports `status=pending` and the schedule exactly
as given — but `retry_count` is `3`, the source's parameter default, not the
`0` the spec states is persisted. -/
theorem C1_add_task_persists_retry_count_three :
    (add_task cronOkTrue initState "T0" "nightly_extraction" "critical"
        (some "0 23 * * *") 3 3 false).map
      (fun p => (get_task_status p.1 p.2).map (fun t : Task => (t.status, t.schedule, t.retry_count)))
    = .ok (some (Status.pending, some "0 23 * * *", (3 : Int))) := rfl

/-- Claim C2 (code bug): a task added with the source defaults starts at
`retry_count = 3 = max_retries`, so its first failing execution is already
terminal — status `failed`, `retry_count` still 3, one log row — instead of
the `pending`/`retry_count=1` of the spec's retry scenario.  Started instead
from `retry_count = 0` (the spec's evident intent) the same code does produce
`pending,1` / `pending,2` / `pending,3` / `failed,3`. -/
theorem C2_default_retry_count_disables_retries :
    ((findTask stateFailed 1).map (fun t : Task => (t.status, t.retry_count))
      = some (Status.failed, (3 : Int))) ∧
    stateFailed.logs.length = 1 ∧
    ((List.range 4).map (fun k =>
        (findTask (runOps cronOkTrue initState
            ([.register "t", .add "T0" "t" "normal" none 0 3 false] ++
              List.replicate (k + 1) (.trigger 1 false "boom" "T1" "T2"))) 1).map
          (fun t : Task => (t.status, t.retry_count)))
      = [some (Status.pending, 1), some (Status.pending, 2),
         some (Status.pending, 3), some (Status.failed, 3)]) :=
  ⟨rfl, rfl, rfl⟩

/-- Claim C5 (counterexample): `"interval 5"` parses and manual-only mode was
not requested, yet with no body registered for the type, `add_task` registers
no trigger — the jobstore stays empty, refuting "for every task_type, whether
or not a body is currently registered". -/
theorem C5_counterexample_no_trigger_for_unregistered_type :
    (_parse_schedule cronOkTrue "interval 5").isSome = true ∧
    (add_task cronOkTrue initState "T0" "unreg" "normal" (some "interval 5") 3 3 false).map
      (fun p => p.1.jobs) = .ok [] :=
  ⟨rfl, rfl⟩

/-- Claim C5 (amended): when the schedule parses and manual-only mode is not
requested, `add_task` registers the trigger iff a body is registered for the
task type at add time (`_schedule_task` returns early on an unregistered
type); otherwise the jobstore is unchanged. -/
theorem C5_amended_trigger_registered_iff_body_registered (cronOk : CronOk) (st : SchedState)
    (now ty pr s : String) (rc mr : Int) (tr : Trigger)
    (hpr : pr ∈ TASK_PRIORITIES) (hs : _parse_schedule cronOk s = some tr) :
    ∃ st2, add_task cronOk st now ty pr (some s) rc mr false = .ok (st2, st.next_id) ∧
      st2.jobs = (if st.task_functions.contains ty
        then st.jobs ++ [{ task_id := st.next_id, task_type := ty, trigger := tr }]
        else st.jobs) := by
  have hne : s ≠ "" := by
    intro he
    have h0 : _parse_schedule cronOk "" = none := rfl
    rw [he, h0] at hs
    exact Option.noConfusion hs
  unfold add_task
  rw [if_neg (not_not_intro hpr)]
  refine ⟨_, rfl, ?_⟩
  show (maybeSchedule cronOk (insertTask st (newTaskRow st now ty pr (some s) rc mr))
      (newTaskRow st now ty pr (some s) rc mr).id ty (some s) false).jobs = _
  simp only [maybeSchedule]
  split
  · cases hc : st.task_functions.contains ty with
    | false =>
      rw [schedule_task_unregistered cronOk (insertTask st (newTaskRow st now ty pr (some s) rc mr))
          (newTaskRow st now ty pr (some s) rc mr).id ty s hc]
      rw [if_neg (show ¬(false = true) by decide)]
      rfl
    | true =>
      rw [schedule_task_registered_parse cronOk (insertTask st (newTaskRow st now ty pr (some s) rc mr))
          (newTaskRow st now ty pr (some s) rc mr).id ty s tr hc hs]
      rw [if_pos rfl]
      rfl
  · rename_i hcon
    exact absurd ⟨hne, by trivial⟩ hcon

/-- Claim C8: for every priority string outside `TASK_PRIORITIES`, `add_task`
raises `ValueError` synchronously (modelled as `Except.error`), before any
write: the state is unchanged, so no task row is inserted and no trigger is
registered. -/
theorem C8_invalid_priority_error_no_persistence (cronOk : CronOk) (st : SchedState)
    (now ty pr : String) (sch : Option String) (rc mr : Int) (man : Bool)
    (hpr : pr ∉ TASK_PRIORITIES) :
    add_task cronOk st now ty pr sch rc mr man = .error ("Invalid priority: " ++ pr) ∧
    applyOp cronOk st (.add now ty pr sch rc mr man) = st := by
  refine ⟨add_task_invalid cronOk st now ty pr sch rc mr man hpr, ?_⟩
  simp only [applyOp, add_task_invalid cronOk st now ty pr sch rc mr man hpr]

/-- Witness for C8 at the concrete priority `"urgent"`. -/
theorem C8_invalid_priority_witness :
    add_task cronOkTrue initState "T0" "t" "urgent" none 3 3 false
      = .error ("Invalid priority: " ++ "urgent") ∧
    applyOp cronOkTrue initState (.add "T0" "t" "urgent" none 3 3 false) = initState :=
  C8_invalid_priority_error_no_persistence cronOkTrue initState "T0" "t" "urgent" none 3 3 false
    (by decide)

/-- Claim C9 (counterexample): `"interval 5 6"` is neither five cron fields
nor of the claim's form `interval N` (three tokens), yet the code's parser
accepts it (it only looks at the second token), so with a registered body
`add_task` DOES register a trigger — refuting "no trigger is registered". -/
theorem C9_counterexample_interval_extra_token_schedules :
    spec_schedule_parses cronOkFalse "interval 5 6" = false ∧
    (add_task cronOkFalse stateRegT "T0" "t" "normal" (some "interval 5 6") 3 3 false).map
      (fun p => p.1.jobs.length) = .ok 1 :=
  ⟨rfl, rfl⟩

/-- Claim C9 (amended): for every schedule string the code's parser rejects
(not five cron-acceptable fields, and not `interval `-prefixed with an
integer second token), `add_task` raises nothing to the caller: it returns
`ok`, the row is created with `status=pending`, and no trigger is registered
— the jobstore is unchanged. -/
theorem C9_amended_unparseable_schedule_soft_fail (cronOk : CronOk) (st : SchedState)
    (now ty pr s : String) (rc mr : Int) (man : Bool)
    (hpr : pr ∈ TASK_PRIORITIES) (hs : _parse_schedule cronOk s = none) :
    ∃ st2, add_task cronOk st now ty pr (some s) rc mr man = .ok (st2, st.next_id) ∧
      st2.tasks = st.tasks ++ [newTaskRow st now ty pr (some s) rc mr] ∧
      (newTaskRow st now ty pr (some s) rc mr).status = Status.pending ∧
      st2.jobs = st.jobs := by
  unfold add_task
  rw [if_neg (not_not_intro hpr)]
  refine ⟨_, rfl, ?_, rfl, ?_⟩
  · rw [tasks_maybeSchedule]
    rfl
  · show (maybeSchedule cronOk (insertTask st (newTaskRow st now ty pr (some s) rc mr))
        (newTaskRow st now ty pr (some s) rc mr).id ty (some s) man).jobs = st.jobs
    simp only [maybeSchedule]
    split
    · rw [schedule_task_noparse cronOk _ _ _ _ hs]
      rfl
    · rfl

/-- Witness for C9 (amended) at the concrete schedule `"bogus"`. -/
theorem C9_amended_witness :
    (add_task cronOkTrue initState "T0" "t" "normal" (some "bogus") 3 3 false).map
      (fun p => (p.1.tasks.map Task.status, p.1.jobs)) = .ok ([Status.pending], []) := by
  obtain ⟨st2, h1, h2, h3, h4⟩ := C9_amended_unparseable_schedule_soft_fail cronOkTrue initState
    "T0" "t" "normal" "bogus" 3 3 false (by decide) (by decide)
  rw [h1]
  simp only [Except.map]
  rw [h2, h4]
  rfl

/-- Claim C10: `cancel_task` returns `True` for every `task_id`, including a
nonexistent one (then the UPDATE matches nothing and the task rows are
unchanged) and a task already in a terminal state. -/
theorem C10_cancel_task_always_true (st : SchedState) (id : Nat) (now : String) :
    (cancel_task st id now).2 = true ∧
    (findTask st id = none → (cancel_task st id now).1.tasks = st.tasks) := by
  refine ⟨rfl, fun h => ?_⟩
  show updateTaskRow st.tasks id (fun t => { t with status := Status.cancelled, updated_at := now })
      = st.tasks
  exact updateTaskRow_no_match st.tasks id _ h

/-- Witness for C10 at id 7 in the empty scheduler. -/
theorem C10_cancel_task_witness :
    (cancel_task initState 7 "T0").2 = true ∧ (cancel_task initState 7 "T0").1.tasks = initState.tasks := by
  obtain ⟨h1, h2⟩ := C10_cancel_task_always_true initState 7 "T0"
  exact ⟨h1, h2 rfl⟩

/-- Witness for C5 (amended): with `"t"` registered, `"interval 5"` gets one
job, for task id 1. -/
theorem C5_amended_witness :
    (add_task cronOkTrue stateRegT "T0" "t" "normal" (some "interval 5") 3 3 false).map
      (fun p => p.1.jobs)
      = .ok [{ task_id := 1, task_type := "t", trigger := Trigger.interval 5 }] := by
  obtain ⟨st2, h1, h2⟩ := C5_amended_trigger_registered_iff_body_registered cronOkTrue stateRegT
    "T0" "t" "normal" "interval 5" 3 3 (Trigger.interval 5) (by decide) (by decide)
  rw [h1]
  simp only [Except.map]
  rw [h2]
  rfl

/-- Claim C6 (counterexample): task 1 of `stateFailed` is in the terminal
status `failed`, yet `trigger_task` executes it, returns `true`, and changes
the state — the claim says any terminal task yields `false` with no change. -/
theorem C6_counterexample_failed_task_triggers_true :
    ((findTask stateFailed 1).map Task.status = some Status.failed) ∧
    (trigger_task stateFailed 1 false "boom" "T3" "T4").2 = true ∧
    (trigger_task stateFailed 1 false "boom" "T3" "T4").1 ≠ stateFailed :=
  ⟨rfl, rfl, by decide⟩

/-- Claim C6 (amended): `trigger_task` returns `false` with no state change
exactly when the task does not exist or its status is `completed` or
`cancelled`; any other existing task — `pending`, `running`, and also the
terminal `failed` — is executed (both row UPDATEs plus a log append) and
`true` is returned. -/
theorem C6_amended_trigger_task_result (st : SchedState) (id : Nat) (bodyOk : Bool)
    (err s c : String) :
    (findTask st id = none → trigger_task st id bodyOk err s c = (st, false)) ∧
    (∀ t, findTask st id = some t →
      (t.status = Status.cancelled ∨ t.status = Status.completed) →
      trigger_task st id bodyOk err s c = (st, false)) ∧
    (∀ t, findTask st id = some t →
      ¬(t.status = Status.cancelled ∨ t.status = Status.completed) →
      trigger_task st id bodyOk err s c = (execResult st id t.task_type bodyOk err s c t, true)) :=
  ⟨fun h => trigger_task_not_found st id bodyOk err s c h,
   fun t h ht => trigger_task_terminal st id bodyOk err s c t h ht,
   fun t h ht => trigger_task_runs st id bodyOk err s c t h ht⟩

/-- Witness for C6 (amended): the `failed` task of `stateFailed` is executed
and `trigger_task` returns `true`. -/
theorem C6_amended_witness :
    trigger_task stateFailed 1 false "boom" "T3" "T4"
      = (execResult stateFailed 1 rowFailed.task_type false "boom" "T3" "T4" rowFailed, true) :=
  (C6_amended_trigger_task_result stateFailed 1 false "boom" "T3" "T4").2.2
    rowFailed (by decide) (by decide)

/-- Claim C7: after each execution of an existing task: on success
(a body is registered for the type and it did not raise) the status becomes
`completed`; on failure with `retry_count < max_retries` the count is
incremented by exactly one and the status becomes `pending`; on failure with
`retry_count ≥ max_retries` the status becomes `failed`; and in every case
exactly one execution record is appended, with status `completed` on success
and `failed` otherwise. -/
theorem C7_execution_outcome (st : SchedState) (id : Nat) (ty : String) (bodyOk : Bool)
    (err s c : String) (t : Task) (h : findTask st id = some t) :
    ∃ st2 t2,
      _execute_task st id ty bodyOk err s c = some st2 ∧
      findTask st2 id = some t2 ∧
      ((st.task_functions.contains ty && bodyOk) = true →
        t2.status = Status.completed ∧ t2.retry_count = t.retry_count) ∧
      ((st.task_functions.contains ty && bodyOk) = false → t.retry_count < t.max_retries →
        t2.status = Status.pending ∧ t2.retry_count = t.retry_count + 1) ∧
      ((st.task_functions.contains ty && bodyOk) = false → ¬t.retry_count < t.max_retries →
        t2.status = Status.failed ∧ t2.retry_count = t.retry_count) ∧
      st2.logs = st.logs ++ [execLogRow st id ty bodyOk err s c] ∧
      (execLogRow st id ty bodyOk err s c).task_id = id ∧
      (execLogRow st id ty bodyOk err s c).status
        = (if (st.task_functions.contains ty && bodyOk) = true
           then Status.completed else Status.failed) := by
  refine ⟨execResult st id ty bodyOk err s c t,
    finishRow (st.task_functions.contains ty && bodyOk) c (runRow s t) (runRow s t),
    execute_found st id ty bodyOk err s c t h,
    findTask_execResult_self st id ty bodyOk err s c t h, ?_, ?_, ?_, rfl, rfl, rfl⟩
  · intro hb
    rw [hb]
    unfold finishRow
    rw [if_neg (by simp)]
    exact ⟨rfl, rfl⟩
  · intro hb hlt
    rw [hb]
    unfold finishRow
    rw [if_pos ⟨rfl, hlt⟩]
    exact ⟨rfl, rfl⟩
  · intro hb hge
    rw [hb]
    unfold finishRow
    rw [if_neg (fun hcon => hge hcon.2)]
    exact ⟨rfl, rfl⟩

/-- Witness for C7: executing the pending task of `statePending` with a
failing body succeeds (the result is `some`). -/
theorem C7_execution_witness :
    (_execute_task statePending 1 "t" false "boom" "T1" "T2").isSome = true := by
  obtain ⟨st2, t2, h1, _⟩ := C7_execution_outcome statePending 1 "t" false "boom" "T1" "T2"
    rowPending (by decide)
  rw [h1]
  rfl

/-- Claim C3 (counterexample): task 1 of `stateCompleted` is `completed`
(terminal), yet `cancel_task` changes its status to `cancelled` — `cancel_task`
never checks the current status. -/
theorem C3_counterexample_cancel_task_cancels_completed :
    ((findTask stateCompleted 1).map Task.status = some Status.completed) ∧
    ((findTask (applyOp cronOkTrue stateCompleted (.cancel 1 "T9")) 1).map Task.status
      = some Status.cancelled) :=
  ⟨rfl, rfl⟩

/-- Claim C3 (amended): every status change of a stored task is caused either
by `cancel_task` on its id — which sets `cancelled` from ANY previous status,
terminal ones included — or by an execution of that task (`trigger_task` or a
scheduled firing, which never checks for a terminal status), moving it to
`completed`, `pending` or `failed` per the retry rule; no other operation
changes any task's status.  `completed`/`failed`/`cancelled` are therefore
not terminal in general; only `trigger_task` refuses `completed` and
`cancelled` tasks. -/
theorem C3_amended_status_change_characterization (cronOk : CronOk) (st : SchedState)
    (op : Op) (id : Nat) (t t2 : Task)
    (h : findTask st id = some t) (h2 : findTask (applyOp cronOk st op) id = some t2) :
    t2.status = t.status
    ∨ (cancelTarget op = some id ∧ t2.status = Status.cancelled)
    ∨ (execTarget op = some id
        ∧ (t2.status = Status.completed ∨ t2.status = Status.pending
            ∨ t2.status = Status.failed)) := by
  cases op with
  | register ty =>
    left
    have hsame : findTask (applyOp cronOk st (.register ty)) id = some t := h
    rw [hsame] at h2
    rw [← Option.some.inj h2]
  | add now ty pr sch rc mr man =>
    left
    have hsame : findTask (applyOp cronOk st (.add now ty pr sch rc mr man)) id = some t := by
      by_cases hpr : pr ∈ TASK_PRIORITIES
      · obtain ⟨st2, he, htasks, _, _⟩ := add_task_ok cronOk st now ty pr sch rc mr man hpr
        simp only [applyOp, he]
        show st2.tasks.find? (fun x => x.id == id) = some t
        rw [htasks]
        exact find?_append_of_some st.tasks _ _ t h
      · simp only [applyOp, add_task_invalid cronOk st now ty pr sch rc mr man hpr]
        exact h
    rw [hsame] at h2
    rw [← Option.some.inj h2]
  | trigger j bodyOk err s c =>
    by_cases hj : j = id
    · subst hj
      by_cases hterm : t.status = Status.cancelled ∨ t.status = Status.completed
      · left
        have hsame : findTask (applyOp cronOk st (.trigger j bodyOk err s c)) j = some t := by
          simp only [applyOp, trigger_task_terminal st j bodyOk err s c t h hterm]
          exact h
        rw [hsame] at h2
        rw [← Option.some.inj h2]
      · right
        right
        refine ⟨rfl, ?_⟩
        have hres : applyOp cronOk st (.trigger j bodyOk err s c)
            = execResult st j t.task_type bodyOk err s c t := by
          simp only [applyOp, trigger_task_runs st j bodyOk err s c t h hterm]
        rw [hres, findTask_execResult_self st j t.task_type bodyOk err s c t h] at h2
        rw [← Option.some.inj h2]
        exact finishRow_status _ _ _ _
    · left
      have hne : id ≠ j := fun he => hj he.symm
      have hsame : findTask (applyOp cronOk st (.trigger j bodyOk err s c)) id = some t := by
        cases hf : findTask st j with
        | none =>
          simp only [applyOp, trigger_task_not_found st j bodyOk err s c hf]
          exact h
        | some u =>
          by_cases hterm : u.status = Status.cancelled ∨ u.status = Status.completed
          · simp only [applyOp, trigger_task_terminal st j bodyOk err s c u hf hterm]
            exact h
          · simp only [applyOp, trigger_task_runs st j bodyOk err s c u hf hterm]
            rw [findTask_execResult_other st j u.task_type bodyOk err s c u id hne]
            exact h
      rw [hsame] at h2
      rw [← Option.some.inj h2]
  | fire j bodyOk err s c =>
    by_cases hj : j = id
    · subst hj
      cases hjob : st.jobs.find? (fun x => x.task_id == j) with
      | none =>
        left
        have hsame : findTask (applyOp cronOk st (.fire j bodyOk err s c)) j = some t := by
          simp only [applyOp, fire_no_job st j bodyOk err s c hjob]
          exact h
        rw [hsame] at h2
        rw [← Option.some.inj h2]
      | some jb =>
        right
        right
        refine ⟨rfl, ?_⟩
        have hres : applyOp cronOk st (.fire j bodyOk err s c)
            = execResult st j jb.task_type bodyOk err s c t := by
          simp only [applyOp, fire_runs st j bodyOk err s c jb hjob t h]
        rw [hres, findTask_execResult_self st j jb.task_type bodyOk err s c t h] at h2
        rw [← Option.some.inj h2]
        exact finishRow_status _ _ _ _
    · left
      have hne : id ≠ j := fun he => hj he.symm
      have hsame : findTask (applyOp cronOk st (.fire j bodyOk err s c)) id = some t := by
        cases hjob : st.jobs.find? (fun x => x.task_id == j) with
        | none =>
          simp only [applyOp, fire_no_job st j bodyOk err s c hjob]
          exact h
        | some jb =>
          cases hrow : findTask st j with
          | none =>
            simp only [applyOp, fire_no_row st j bodyOk err s c jb hjob hrow]
            exact h
          | some u =>
            simp only [applyOp, fire_runs st j bodyOk err s c jb hjob u hrow]
            rw [findTask_execResult_other st j jb.task_type bodyOk err s c u id hne]
            exact h
      rw [hsame] at h2
      rw [← Option.some.inj h2]
  | cancel j now =>
    by_cases hj : j = id
    · subst hj
      right
      left
      refine ⟨rfl, ?_⟩
      have hid : t.id = j := find?_id_eq st.tasks j t h
      have h0 : st.tasks.find? (fun x => x.id == j) = some t := h
      have hfind : findTask (applyOp cronOk st (.cancel j now)) j
          = some { t with status := Status.cancelled, updated_at := now } := by
        show (updateTaskRow st.tasks j
            (fun x => { x with status := Status.cancelled, updated_at := now })).find?
            (fun x => x.id == j) = _
        rw [find?_updateTaskRow st.tasks j
            (fun x => { x with status := Status.cancelled, updated_at := now }) (fun u => rfl) j,
          h0]
        simp [hid]
      rw [hfind] at h2
      rw [← Option.some.inj h2]
    · left
      have hne : id ≠ j := fun he => hj he.symm
      have hsame : findTask (applyOp cronOk st (.cancel j now)) id = some t := by
        show (updateTaskRow st.tasks j
            (fun x => { x with status := Status.cancelled, updated_at := now })).find?
            (fun x => x.id == id) = some t
        rw [find?_updateTaskRow_other st.tasks j
            (fun x => { x with status := Status.cancelled, updated_at := now }) (fun u => rfl) id hne]
        exact h
      rw [hsame] at h2
      rw [← Option.some.inj h2]

/-- Witness for C3 (amended): cancelling the pending task of `statePending`
realizes the `cancelled` disjunct. -/
theorem C3_amended_witness :
    rowCancelled.status = rowPending.status
    ∨ (cancelTarget (.cancel 1 "T9") = some 1 ∧ rowCancelled.status = Status.cancelled)
    ∨ (execTarget (.cancel 1 "T9") = some 1
        ∧ (rowCancelled.status = Status.completed ∨ rowCancelled.status = Status.pending
            ∨ rowCancelled.status = Status.failed)) :=
  C3_amended_status_change_characterization cronOkTrue statePending (.cancel 1 "T9") 1
    rowPending rowCancelled (by decide) (by decide)

/-- Claim C4 (counterexample): `add_task` never validates its retry
arguments: `retry_count=5, max_retries=3` is accepted without error,
producing a reachable state whose only row violates
`0 ≤ retry_count ≤ max_retries`. -/
theorem C4_counterexample_add_task_accepts_retry_above_max :
    (findTask (runOps cronOkTrue initState [.add "T0" "t" "normal" none 5 3 false]) 1).map
      (fun t : Task => decide (0 ≤ t.retry_count ∧ t.retry_count ≤ t.max_retries))
    = some false := rfl

theorem pairwise_updateTaskRow (l : List Task) (j : Nat) (g : Task → Task)
    (hg : ∀ t, (g t).id = t.id) (hp : l.Pairwise (fun a b => a.id ≠ b.id)) :
    (updateTaskRow l j g).Pairwise (fun a b => a.id ≠ b.id) := by
  unfold updateTaskRow
  rw [List.pairwise_map]
  refine hp.imp ?_
  intro a b hab
  have ha : (if a.id = j then g a else a).id = a.id := by
    by_cases hc : a.id = j
    · rw [if_pos hc, hg]
    · rw [if_neg hc]
  have hb2 : (if b.id = j then g b else b).id = b.id := by
    by_cases hc : b.id = j
    · rw [if_pos hc, hg]
    · rw [if_neg hc]
  show (if a.id = j then g a else a).id ≠ (if b.id = j then g b else b).id
  rw [ha, hb2]
  exact hab

theorem bound_updateTaskRow (l : List Task) (next j : Nat) (g : Task → Task)
    (hg : ∀ t, (g t).id = t.id) (hb : ∀ t ∈ l, t.id < next) :
    ∀ t ∈ updateTaskRow l j g, t.id < next := by
  intro t ht
  simp only [updateTaskRow] at ht
  rcases List.mem_map.mp ht with ⟨u, hu, rfl⟩
  by_cases hc : u.id = j
  · rw [if_pos hc, hg]
    exact hb u hu
  · rw [if_neg hc]
    exact hb u hu

theorem retry_updateTaskRow_pres (l : List Task) (j : Nat) (g : Task → Task)
    (hg1 : ∀ t, (g t).retry_count = t.retry_count)
    (hg2 : ∀ t, (g t).max_retries = t.max_retries)
    (hinv : ∀ t ∈ l, 0 ≤ t.retry_count ∧ t.retry_count ≤ t.max_retries) :
    ∀ t ∈ updateTaskRow l j g, 0 ≤ t.retry_count ∧ t.retry_count ≤ t.max_retries := by
  intro t ht
  simp only [updateTaskRow] at ht
  rcases List.mem_map.mp ht with ⟨u, hu, rfl⟩
  by_cases hc : u.id = j
  · rw [if_pos hc]
    constructor
    · rw [hg1]
      exact (hinv u hu).1
    · rw [hg1, hg2]
      exact (hinv u hu).2
  · rw [if_neg hc]
    exact hinv u hu

theorem retry_bounds_execResult (st : SchedState) (j : Nat) (ty : String) (bodyOk : Bool)
    (err s c : String) (t : Task) (h : findTask st j = some t)
    (hp : st.tasks.Pairwise (fun a b => a.id ≠ b.id))
    (hinv : ∀ u ∈ st.tasks, 0 ≤ u.retry_count ∧ u.retry_count ≤ u.max_retries) :
    ∀ u ∈ (execResult st j ty bodyOk err s c t).tasks,
      0 ≤ u.retry_count ∧ u.retry_count ≤ u.max_retries := by
  have h0 : st.tasks.find? (fun x => x.id == j) = some t := h
  have hp1 : (updateTaskRow st.tasks j (runRow s)).Pairwise (fun a b => a.id ≠ b.id) :=
    pairwise_updateTaskRow st.tasks j (runRow s) (fun u => rfl) hp
  have hinv1 : ∀ u ∈ updateTaskRow st.tasks j (runRow s),
      0 ≤ u.retry_count ∧ u.retry_count ≤ u.max_retries :=
    retry_updateTaskRow_pres st.tasks j (runRow s) (fun u => rfl) (fun u => rfl) hinv
  have hfind1 : (updateTaskRow st.tasks j (runRow s)).find? (fun x => x.id == j)
      = some (runRow s t) := by
    rw [find?_updateTaskRow st.tasks j (runRow s) (fun u => rfl) j, h0]
    simp [find?_id_eq st.tasks j t h]
  intro u hu
  have hu2 : u ∈ updateTaskRow (updateTaskRow st.tasks j (runRow s)) j
      (finishRow (st.task_functions.contains ty && bodyOk) c (runRow s t)) := hu
  simp only [updateTaskRow] at hu2
  rcases List.mem_map.mp hu2 with ⟨v, hv, rfl⟩
  by_cases hc : v.id = j
  · rw [if_pos hc]
    have hveq : v = runRow s t :=
      find?_unique_of_pairwise (updateTaskRow st.tasks j (runRow s)) j (runRow s t) v
        hp1 hfind1 hv hc
    rw [hveq]
    have hbt := hinv t (List.mem_of_find?_eq_some h0)
    unfold finishRow
    split
    · rename_i hcond
      have h1 : (0 : Int) ≤ t.retry_count := hbt.1
      have h2 : t.retry_count < t.max_retries := hcond.2
      constructor
      · show (0 : Int) ≤ t.retry_count + 1
        omega
      · show t.retry_count + 1 ≤ t.max_retries
        omega
    · exact ⟨hbt.1, hbt.2⟩
  · rw [if_neg hc]
    exact hinv1 v hv

theorem stInv_applyOp (cronOk : CronOk) (st : SchedState) (op : Op)
    (hop : addArgsOk op = true)
    (hp : st.tasks.Pairwise (fun a b => a.id ≠ b.id))
    (hb : ∀ t ∈ st.tasks, t.id < st.next_id)
    (hr : ∀ t ∈ st.tasks, 0 ≤ t.retry_count ∧ t.retry_count ≤ t.max_retries) :
    (applyOp cronOk st op).tasks.Pairwise (fun a b => a.id ≠ b.id) ∧
    (∀ t ∈ (applyOp cronOk st op).tasks, t.id < (applyOp cronOk st op).next_id) ∧
    (∀ t ∈ (applyOp cronOk st op).tasks,
      0 ≤ t.retry_count ∧ t.retry_count ≤ t.max_retries) := by
  cases op with
  | register ty => exact ⟨hp, hb, hr⟩
  | add now ty pr sch rc mr man =>
    by_cases hpr : pr ∈ TASK_PRIORITIES
    · obtain ⟨st2, he, htasks, hnext, _⟩ := add_task_ok cronOk st now ty pr sch rc mr man hpr
      simp only [applyOp, he]
      have hrcmr : (0 : Int) ≤ rc ∧ rc ≤ mr := of_decide_eq_true hop
      refine ⟨?_, ?_, ?_⟩
      · rw [htasks, List.pairwise_append]
        refine ⟨hp, by simp, ?_⟩
        intro a ha b hbm
        have hbrow : b = newTaskRow st now ty pr sch rc mr := by simpa using hbm
        rw [hbrow]
        exact Nat.ne_of_lt (hb a ha)
      · intro u hu
        rw [htasks] at hu
        rw [hnext]
        rcases List.mem_append.mp hu with h1 | h1
        · exact Nat.lt_succ_of_lt (hb u h1)
        · have hurow : u = newTaskRow st now ty pr sch rc mr := by simpa using h1
          rw [hurow]
          exact Nat.lt_succ_self st.next_id
      · intro u hu
        rw [htasks] at hu
        rcases List.mem_append.mp hu with h1 | h1
        · exact hr u h1
        · have hurow : u = newTaskRow st now ty pr sch rc mr := by simpa using h1
          rw [hurow]
          exact hrcmr
    · simp only [applyOp, add_task_invalid cronOk st now ty pr sch rc mr man hpr]
      exact ⟨hp, hb, hr⟩
  | trigger j bodyOk err s c =>
    cases hf : findTask st j with
    | none =>
      simp only [applyOp, trigger_task_not_found st j bodyOk err s c hf]
      exact ⟨hp, hb, hr⟩
    | some u =>
      by_cases hterm : u.status = Status.cancelled ∨ u.status = Status.completed
      · simp only [applyOp, trigger_task_terminal st j bodyOk err s c u hf hterm]
        exact ⟨hp, hb, hr⟩
      · simp only [applyOp, trigger_task_runs st j bodyOk err s c u hf hterm]
        refine ⟨?_, ?_, ?_⟩
        · exact pairwise_updateTaskRow (updateTaskRow st.tasks j (runRow s)) j
            (finishRow (st.task_functions.contains u.task_type && bodyOk) c (runRow s u))
            (fun v => id_finishRow _ _ _ v)
            (pairwise_updateTaskRow st.tasks j (runRow s) (fun v => rfl) hp)
        · exact bound_updateTaskRow (updateTaskRow st.tasks j (runRow s)) st.next_id j
            (finishRow (st.task_functions.contains u.task_type && bodyOk) c (runRow s u))
            (fun v => id_finishRow _ _ _ v)
            (bound_updateTaskRow st.tasks st.next_id j (runRow s) (fun v => rfl) hb)
        · exact retry_bounds_execResult st j u.task_type bodyOk err s c u hf hp hr
  | fire j bodyOk err s c =>
    cases hjob : st.jobs.find? (fun x => x.task_id == j) with
    | none =>
      simp only [applyOp, fire_no_job st j bodyOk err s c hjob]
      exact ⟨hp, hb, hr⟩
    | some jb =>
      cases hrow : findTask st j with
      | none =>
        simp only [applyOp, fire_no_row st j bodyOk err s c jb hjob hrow]
        exact ⟨hp, hb, hr⟩
      | some u =>
        simp only [applyOp, fire_runs st j bodyOk err s c jb hjob u hrow]
        refine ⟨?_, ?_, ?_⟩
        · exact pairwise_updateTaskRow (updateTaskRow st.tasks j (runRow s)) j
            (finishRow (st.task_functions.contains jb.task_type && bodyOk) c (runRow s u))
            (fun v => id_finishRow _ _ _ v)
            (pairwise_updateTaskRow st.tasks j (runRow s) (fun v => rfl) hp)
        · exact bound_updateTaskRow (updateTaskRow st.tasks j (runRow s)) st.next_id j
            (finishRow (st.task_functions.contains jb.task_type && bodyOk) c (runRow s u))
            (fun v => id_finishRow _ _ _ v)
            (bound_updateTaskRow st.tasks st.next_id j (runRow s) (fun v => rfl) hb)
        · exact retry_bounds_execResult st j jb.task_type bodyOk err s c u hrow hp hr
  | cancel j now =>
    refine ⟨?_, ?_, ?_⟩
    · exact pairwise_updateTaskRow st.tasks j
        (fun x => { x with status := Status.cancelled, updated_at := now }) (fun v => rfl) hp
    · exact bound_updateTaskRow st.tasks st.next_id j
        (fun x => { x with status := Status.cancelled, updated_at := now }) (fun v => rfl) hb
    · exact retry_updateTaskRow_pres st.tasks j
        (fun x => { x with status := Status.cancelled, updated_at := now })
        (fun v => rfl) (fun v => rfl) hr

theorem stInv_runOps (cronOk : CronOk) (ops : List Op) (st : SchedState)
    (hops : ∀ op ∈ ops, addArgsOk op = true)
    (hp : st.tasks.Pairwise (fun a b => a.id ≠ b.id))
    (hb : ∀ t ∈ st.tasks, t.id < st.next_id)
    (hr : ∀ t ∈ st.tasks, 0 ≤ t.retry_count ∧ t.retry_count ≤ t.max_retries) :
    (runOps cronOk st ops).tasks.Pairwise (fun a b => a.id ≠ b.id) ∧
    (∀ t ∈ (runOps cronOk st ops).tasks, t.id < (runOps cronOk st ops).next_id) ∧
    (∀ t ∈ (runOps cronOk st ops).tasks,
      0 ≤ t.retry_count ∧ t.retry_count ≤ t.max_retries) := by
  induction ops generalizing st with
  | nil => exact ⟨hp, hb, hr⟩
  | cons op ops ih =>
    obtain ⟨h1, h2, h3⟩ := stInv_applyOp cronOk st op (hops op (List.mem_cons_self op ops)) hp hb hr
    exact ih (applyOp cronOk st op) (fun o ho => hops o (List.mem_cons_of_mem op ho)) h1 h2 h3

/-- Claim C4 (amended): provided every `add_task` call passes arguments with
`0 ≤ retry_count ≤ max_retries` — the code itself never validates them — every
task row in every state reachable from a fresh scheduler satisfies
`0 ≤ retry_count ≤ max_retries`: the scheduler's own retry handling and
cancellation preserve the bounds. -/
theorem C4_amended_retry_bounds_invariant (cronOk : CronOk) (ops : List Op)
    (hops : ∀ op ∈ ops, addArgsOk op = true) :
    ∀ t ∈ (runOps cronOk initState ops).tasks,
      0 ≤ t.retry_count ∧ t.retry_count ≤ t.max_retries :=
  (stInv_runOps cronOk ops initState hops List.Pairwise.nil
    (fun t ht => absurd ht (List.not_mem_nil t))
    (fun t ht => absurd ht (List.not_mem_nil t))).2.2

/-- Witness for C4 (amended): after `c4Ops` (one failing run from
`retry_count 0`), the stored row `rowRetry1` satisfies the bounds. -/
theorem C4_amended_witness :
    0 ≤ rowRetry1.retry_count ∧ rowRetry1.retry_count ≤ rowRetry1.max_retries :=
  C4_amended_retry_bounds_invariant cronOkTrue c4Ops (by decide) rowRetry1 (by decide)

end TaskSched
